import Mathlib

/-!
Shallow embedding of `src/video-tools/video.py` (HON95/micro-projects).

The script concatenates video files: it probes the first input for
metadata, opens a writer with the negotiated parameters, then streams
every frame of every input into the writer, optionally emitting status
lines (every `-s` seconds of wall time) and previews (every `-p` frames).

Modelling decisions:
* Frames are opaque tokens (`Nat`); the pipeline never inspects pixels.
* Python floats (`time.perf_counter`, framerates) are modelled as `Rat`.
* Wall-clock time is an explicit oracle `clock : Nat → Rat`; the n-th call
  to `time.perf_counter()` inside `process` returns `clock n` (call 0 is
  `start_time`, call `1 + k` happens after appending the k-th frame, and
  the final call is made after the loop on a successful run).
* Each `imageio` reader is a list of frames plus a `bad` flag: a bad
  reader raises a decode error after yielding its listed frames.
* The observable behaviour of a run is a trace of `Event`s (reader/writer
  opens and closes, frame appends, status and preview emissions, the
  final summary) plus an optional uncaught `ProcErr`.
* `re.search` over the anchored pattern of line 124 is embedded as a
  greedy `takeWhile` over the exact character class of the pattern.
* The probe reader of lines 119–126 (metadata only, no frames) is not
  given trace events; its open/close is not the subject of any claim.
-/

namespace VideoTools

/-- Frames are opaque pixel arrays; the pipeline only moves them around,
so an abstract token suffices. -/
abbrev Frame := Nat

/-- Metadata returned by `reader.get_meta_data()` for an input file:
the fields the script reads at lines 121–125. -/
structure Metadata where
  size : Nat × Nat
  fps : Rat
  pix_fmt : String
  codec : String
  deriving Repr, DecidableEq

/-- One input file: its probe metadata, the frames its reader yields in
decode order, and whether the reader raises a decode error after the
listed frames (a malformed tail). -/
structure InputFile where
  meta : Metadata
  frames : List Frame
  bad : Bool
  deriving Repr, DecidableEq

/-- The module-level configuration set by `parse_arguments`:
`_framerate` (float or None), `_status` (int or None), `_preview`
(int or None). `none` is Python's `None`. -/
structure Config where
  framerate : Option Rat
  status : Option Int
  preview : Option Int
  deriving Repr, DecidableEq

/-- Python truthiness of `_framerate` (a float or None): `None` and `0.0`
are falsy, every other value truthy. -/
def truthyR : Option Rat → Bool
  | none => false
  | some r => r != 0

/-- Python truthiness of an int-or-None variable (`_status`, `_preview`):
`None` and `0` are falsy, every other value truthy. -/
def truthyI : Option Int → Bool
  | none => false
  | some n => n != 0

/-- The character class `[0-9A-Za-z]` of the pattern at line 124. -/
def inClass (c : Char) : Bool :=
  (decide ('0' ≤ c) && decide (c ≤ '9'))
    || (decide ('A' ≤ c) && decide (c ≤ 'Z'))
    || (decide ('a' ≤ c) && decide (c ≤ 'z'))

/-- line 124, `re.search(r"^[0-9A-Za-z]+", s)`: the pattern is anchored at
the start of the string, and `+` is greedy with nothing following, so the
match — when the first character is in the class — is exactly the maximal
leading run of class characters; otherwise `re.search` returns `None`. -/
def reSearchTok (s : String) : Option String :=
  let run := s.data.takeWhile inClass
  if run.isEmpty then none else some (String.mk run)

/-- Whether a string starts with a character of the class `[0-9A-Za-z]`. -/
def startsAlnumB (s : String) : Bool :=
  match s.data with
  | [] => false
  | c :: _ => inClass c

/-- The parameters the script has derived after lines 114–126: those of
the probe of `input[0]`, with the framerate possibly overridden. -/
structure MediaParams where
  size : Nat × Nat
  framerate : Rat
  pixelformat : String
  codec : String
  deriving Repr, DecidableEq

/-- Uncaught Python exceptions the modelled code can raise:
`IndexError` (`_input_files[0]` on an empty list), `TypeError`
(`None[0]` at line 124), and a decode error from a bad reader. -/
inductive ProcErr
  | indexError
  | typeError
  | decodeError
  deriving Repr, DecidableEq

/-- line 13: fixed output quality. -/
def OUTPUT_QUALITY : Nat := 10

/-- Lines 114–126 of `process`: read the metadata of the given input,
keep the override framerate if it is truthy, else the probed one; the
pixel-format token comes from the anchored regex search (whose `None`
result would be subscripted, raising `TypeError`). -/
def probe (cfg : Config) (inp : InputFile) : Except ProcErr MediaParams :=
  let fr := if truthyR cfg.framerate then cfg.framerate.getD 0 else inp.meta.fps
  match reSearchTok inp.meta.pix_fmt with
  | none => Except.error ProcErr.typeError
  | some pf =>
    Except.ok { size := inp.meta.size, framerate := fr, pixelformat := pf,
                codec := inp.meta.codec }

/-- Observable events of one run of `process`. `openWriter` records the
arguments passed to `imageio.get_writer` at line 144 (fps, quality,
codec, pixelformat — note the probed size is *not* passed). `status`
records the fields of the line-154 status message, `preview` the frame,
index and timestamp handed to the preview figure at lines 158–159. -/
inductive Event
  | openWriter (fps : Rat) (quality : Nat) (codec : String) (pixelformat : String)
  | openReader (idx : Nat)
  | append (f : Frame)
  | status (elapsed : Rat) (images : Nat) (videoDur : Rat)
  | preview (f : Frame) (idx : Nat) (ts : Rat)
  | closeReader (idx : Nat)
  | closeWriter
  | summary (totalTime : Rat) (images : Nat) (rate : Rat)
  deriving Repr, DecidableEq

/-- Mutable loop state of `process`: `total_image_count`,
`last_status_time`, and the index of the next `time.perf_counter` call. -/
structure RunState where
  count : Nat
  lastStatus : Rat
  tick : Nat
  deriving Repr, DecidableEq

/-- Lines 150–161, one iteration of the inner loop: append the frame,
read the clock, maybe emit a status line (and reset the status timer),
maybe emit a preview, then increment the counter. The status and preview
records use `total_image_count` before its increment, exactly as the
code does. -/
def frameStep (cfg : Config) (clock : Nat → Rat) (startTime fr : Rat)
    (st : RunState) (f : Frame) : List Event × RunState :=
  let current := clock st.tick
  let statusFire :=
    truthyI cfg.status && decide (current - st.lastStatus > ((cfg.status.getD 0 : Int) : Rat))
  let previewFire :=
    truthyI cfg.preview && decide ((st.count : Int) % cfg.preview.getD 0 = 0)
  (Event.append f
      :: ((if statusFire then
            [Event.status (current - startTime) st.count ((st.count : Rat) / fr)]
          else [])
        ++ (if previewFire then
            [Event.preview f st.count ((st.count : Rat) / fr)]
          else [])),
   { count := st.count + 1,
     lastStatus := if statusFire then current else st.lastStatus,
     tick := st.tick + 1 })

/-- The inner `for frame in reader` loop over one reader's frames. -/
def runFrames (cfg : Config) (clock : Nat → Rat) (startTime fr : Rat) :
    List Frame → RunState → List Event × RunState
  | [], st => ([], st)
  | f :: rest, st =>
    let p := frameStep cfg clock startTime fr st f
    let q := runFrames cfg clock startTime fr rest p.2
    (p.1 ++ q.1, q.2)

/-- Lines 148–162 for one input: open its reader, stream its frames,
then close the reader — unless the reader is bad, in which case the
iteration raises mid-stream and `reader.close()` is never reached
(there is no try/finally in the code). The Bool is `false` when the
run aborts here. -/
def runInput (cfg : Config) (clock : Nat → Rat) (startTime fr : Rat)
    (idx : Nat) (inp : InputFile) (st : RunState) :
    List Event × RunState × Bool :=
  let p := runFrames cfg clock startTime fr inp.frames st
  (Event.openReader idx :: p.1 ++ (if inp.bad then [] else [Event.closeReader idx]),
   p.2, !inp.bad)

/-- The outer `for input_file in _input_files` loop (lines 146–162): run
each input in order, stopping at the first decode error. `idx` numbers
the readers for the trace. -/
def runInputs (cfg : Config) (clock : Nat → Rat) (startTime fr : Rat) :
    List InputFile → Nat → RunState → List Event × RunState × Bool
  | [], _, st => ([], st, true)
  | inp :: rest, idx, st =>
    let p := runInput cfg clock startTime fr idx inp st
    if p.2.2 then
      let q := runInputs cfg clock startTime fr rest (idx + 1) p.2.1
      (p.1 ++ q.1, q.2)
    else (p.1, p.2.1, false)

/-- `process` (lines 113–173): probe `input[0]` (an empty input list
raises `IndexError` at line 119; a pixel-format string with no leading
class character raises `TypeError` at line 124), take `start_time`,
open the writer with the negotiated fps/quality/codec/pixelformat,
stream all inputs, and on success close the writer and emit the final
summary (total wall time, total image count, and their quotient, the
average processing FPS of lines 167–173). On a decode error the trace
simply stops: neither the current reader nor the writer is closed. -/
def process (cfg : Config) (clock : Nat → Rat) (inputs : List InputFile) :
    List Event × Option ProcErr :=
  match inputs with
  | [] => ([], some ProcErr.indexError)
  | first :: _ =>
    match probe cfg first with
    | Except.error e => ([], some e)
    | Except.ok params =>
      let startTime := clock 0
      let st0 : RunState := { count := 0, lastStatus := startTime, tick := 1 }
      let r := runInputs cfg clock startTime params.framerate inputs 0 st0
      let tr := Event.openWriter params.framerate OUTPUT_QUALITY params.codec
          params.pixelformat :: r.1
      if r.2.2 then
        let endTime := clock r.2.1.tick
        let totalTime := endTime - startTime
        (tr ++ [Event.closeWriter,
                Event.summary totalTime r.2.1.count ((r.2.1.count : Rat) / totalTime)],
         none)
      else (tr, some ProcErr.decodeError)

/-- The asserts of `parse_arguments` (lines 67–73): inputs non-empty,
and `-f` / `-p` must be positive when truthy. Note: `_status` is *not*
validated there. A config that fails this never reaches `process`. -/
def assertsPass (cfg : Config) (inputs : List String) : Bool :=
  !inputs.isEmpty
    && (if truthyR cfg.framerate then decide ((0 : Rat) < cfg.framerate.getD 0) else true)
    && (if truthyI cfg.preview then decide ((0 : Int) < cfg.preview.getD 0) else true)

/-- The filesystem facts `check_files` consults. -/
structure FS where
  isFile : String → Bool
  pathExists : String → Bool
  readable : String → Bool
  parentWritable : String → Bool

/-- `check_files` (lines 78–110): every input must be a readable file;
then, if the output path exists, it must be a file and `-w` must have
been given; finally the output's directory must be writable. -/
def check_files (fs : FS) (inputs : List String) (output : String)
    (overwrite : Bool) : Bool :=
  inputs.all (fun f => fs.isFile f && fs.readable f)
    && (!fs.pathExists output || (overwrite && fs.isFile output))
    && fs.parentWritable output

/-- `main` (lines 25–35) after successful argument parsing: run
`check_files` and exit 1 without touching any source or the sink if it
fails; otherwise run `process` (an uncaught exception there makes the
interpreter exit 1, success exits 0). `content` maps an input path to
the input file the decode layer sees. Result: the event trace of the
run and the exit code. -/
def main (fs : FS) (cfg : Config) (clock : Nat → Rat)
    (inputPaths : List String) (output : String) (overwrite : Bool)
    (content : String → InputFile) : List Event × Nat :=
  if check_files fs inputPaths output overwrite then
    match process cfg clock (inputPaths.map content) with
    | (tr, none) => (tr, 0)
    | (tr, some _) => (tr, 1)
  else ([], 1)

/-- The frames appended to the writer, in order, in a trace. -/
def appendedFrames (tr : List Event) : List Frame :=
  tr.filterMap fun e => match e with
    | Event.append f => some f
    | _ => none

/-- The status records of a trace: (elapsed, images, videoDuration). -/
def statusRecords (tr : List Event) : List (Rat × Nat × Rat) :=
  tr.filterMap fun e => match e with
    | Event.status el im vd => some (el, im, vd)
    | _ => none

/-- The preview records of a trace: (frame, index, timestamp). -/
def previewRecords (tr : List Event) : List (Frame × Nat × Rat) :=
  tr.filterMap fun e => match e with
    | Event.preview f i ts => some (f, i, ts)
    | _ => none

/-- The final summary records of a trace: (totalTime, images, rate). -/
def summaryRecords (tr : List Event) : List (Rat × Nat × Rat) :=
  tr.filterMap fun e => match e with
    | Event.summary t im r => some (t, im, r)
    | _ => none

/-- The writer-open records of a trace: the arguments of line 144. -/
def writerOpens (tr : List Event) : List (Rat × Nat × String × String) :=
  tr.filterMap fun e => match e with
    | Event.openWriter fps q c pf => some (fps, q, c, pf)
    | _ => none

/-- Indices of readers opened in a trace, in order. -/
def openedReaders (tr : List Event) : List Nat :=
  tr.filterMap fun e => match e with
    | Event.openReader i => some i
    | _ => none

/-- Indices of readers closed in a trace, in order. -/
def closedReaders (tr : List Event) : List Nat :=
  tr.filterMap fun e => match e with
    | Event.closeReader i => some i
    | _ => none

/-- How many times the writer is closed in a trace. -/
def writerCloseCount (tr : List Event) : Nat :=
  (tr.filter fun e => match e with
    | Event.closeWriter => true
    | _ => false).length

/-- Walk a trace counting appends, recording each status record together
with the number of appends that precede it in the trace: entries are
(elapsed, images, videoDuration, appendsSoFar). -/
def statusCtx : List Event → Nat → List (Rat × Nat × Rat × Nat)
  | [], _ => []
  | Event.append _ :: rest, n => statusCtx rest (n + 1)
  | Event.status el im vd :: rest, n => (el, im, vd, n) :: statusCtx rest n
  | _ :: rest, n => statusCtx rest n

/-- Modelled from the spec for comparison with the code (claim C6):
previews are due exactly at the frames whose global 0-indexed position
`n` is a multiple of P (`0, P, 2P, …`; for `P > 0` and `n ≥ 0`,
`n % P = 0` says exactly that), each carrying its index and the
timestamp `n / framerate`. -/
def expectedPreviews (p : Int) (fr : Rat) : List Frame → Nat → List (Frame × Nat × Rat)
  | [], _ => []
  | f :: rest, n =>
    (if (n : Int) % p = 0 then [(f, n, (n : Rat) / fr)] else [])
      ++ expectedPreviews p fr rest (n + 1)

end VideoTools

namespace VideoTools

/-- Events that the inner frame loop can produce. -/
def isFrameEv : Event → Bool
  | Event.append _ => true
  | Event.status _ _ _ => true
  | Event.preview _ _ _ => true
  | _ => false

theorem isFrameEv_frameStep (cfg : Config) (clock : Nat → Rat) (s fr : Rat)
    (st : RunState) (f : Frame) :
    ∀ e ∈ (frameStep cfg clock s fr st f).1, isFrameEv e = true := by
  intro e h
  simp only [frameStep, List.mem_cons, List.mem_append] at h
  rcases h with rfl | h | h
  · rfl
  · split at h <;> simp_all [isFrameEv]
  · split at h <;> simp_all [isFrameEv]

theorem frameStep_count (cfg : Config) (clock : Nat → Rat) (s fr : Rat)
    (st : RunState) (f : Frame) :
    (frameStep cfg clock s fr st f).2.count = st.count + 1 := rfl

theorem frameStep_tick (cfg : Config) (clock : Nat → Rat) (s fr : Rat)
    (st : RunState) (f : Frame) :
    (frameStep cfg clock s fr st f).2.tick = st.tick + 1 := rfl

theorem runFrames_count (cfg : Config) (clock : Nat → Rat) (s fr : Rat) :
    ∀ (frames : List Frame) (st : RunState),
      (runFrames cfg clock s fr frames st).2.count = st.count + frames.length := by
  intro frames
  induction frames with
  | nil => intro st; simp [runFrames]
  | cons f rest ih =>
    intro st
    simp only [runFrames]
    rw [ih, frameStep_count]
    simp [Nat.add_comm, Nat.add_assoc, Nat.add_left_comm]

theorem runFrames_tick (cfg : Config) (clock : Nat → Rat) (s fr : Rat) :
    ∀ (frames : List Frame) (st : RunState),
      (runFrames cfg clock s fr frames st).2.tick = st.tick + frames.length := by
  intro frames
  induction frames with
  | nil => intro st; simp [runFrames]
  | cons f rest ih =>
    intro st
    simp only [runFrames]
    rw [ih, frameStep_tick]
    simp [Nat.add_comm, Nat.add_assoc, Nat.add_left_comm]

theorem isFrameEv_runFrames (cfg : Config) (clock : Nat → Rat) (s fr : Rat) :
    ∀ (frames : List Frame) (st : RunState),
      ∀ e ∈ (runFrames cfg clock s fr frames st).1, isFrameEv e = true := by
  intro frames
  induction frames with
  | nil => intro st e h; simp [runFrames] at h
  | cons f rest ih =>
    intro st e h
    simp only [runFrames, List.mem_append] at h
    rcases h with h | h
    · exact isFrameEv_frameStep cfg clock s fr st f e h
    · exact ih _ e h

theorem appendedFrames_frameStep (cfg : Config) (clock : Nat → Rat) (s fr : Rat)
    (st : RunState) (f : Frame) :
    appendedFrames (frameStep cfg clock s fr st f).1 = [f] := by
  simp only [frameStep, appendedFrames, List.filterMap_cons, List.filterMap_append]
  split <;> split <;> simp [List.filterMap]

theorem appendedFrames_runFrames (cfg : Config) (clock : Nat → Rat) (s fr : Rat) :
    ∀ (frames : List Frame) (st : RunState),
      appendedFrames (runFrames cfg clock s fr frames st).1 = frames := by
  intro frames
  induction frames with
  | nil => intro st; simp [runFrames, appendedFrames]
  | cons f rest ih =>
    intro st
    simp only [runFrames, appendedFrames, List.filterMap_append]
    have h1 := appendedFrames_frameStep cfg clock s fr st f
    have h2 := ih (frameStep cfg clock s fr st f).2
    simp only [appendedFrames] at h1 h2
    rw [h1, h2]
    rfl

/-- All the non-frame extractors vanish on a trace of frame events only. -/
theorem extractors_of_frameEv (tr : List Event)
    (h : ∀ e ∈ tr, isFrameEv e = true) :
    openedReaders tr = [] ∧ closedReaders tr = [] ∧ writerOpens tr = [] ∧
      summaryRecords tr = [] ∧ writerCloseCount tr = 0 := by
  refine ⟨?_, ?_, ?_, ?_, ?_⟩
  · rw [openedReaders, List.filterMap_eq_nil_iff]
    intro e he
    have := h e he
    cases e <;> simp_all [isFrameEv]
  · rw [closedReaders, List.filterMap_eq_nil_iff]
    intro e he
    have := h e he
    cases e <;> simp_all [isFrameEv]
  · rw [writerOpens, List.filterMap_eq_nil_iff]
    intro e he
    have := h e he
    cases e <;> simp_all [isFrameEv]
  · rw [summaryRecords, List.filterMap_eq_nil_iff]
    intro e he
    have := h e he
    cases e <;> simp_all [isFrameEv]
  · rw [writerCloseCount, List.length_eq_zero, List.filter_eq_nil_iff]
    intro e he
    have := h e he
    cases e <;> simp_all [isFrameEv]

end VideoTools

namespace VideoTools

/-- Number of append events in a trace, in walker form. -/
def appCount : List Event → Nat
  | [] => 0
  | Event.append _ :: rest => appCount rest + 1
  | _ :: rest => appCount rest

theorem appCount_eq (tr : List Event) : appCount tr = (appendedFrames tr).length := by
  induction tr with
  | nil => rfl
  | cons e rest ih =>
    cases e <;> simp [appCount, appendedFrames, List.filterMap_cons, ih]

theorem statusCtx_append (xs : List Event) :
    ∀ (ys : List Event) (n : Nat),
      statusCtx (xs ++ ys) n = statusCtx xs n ++ statusCtx ys (n + appCount xs) := by
  induction xs with
  | nil => intro ys n; simp [statusCtx, appCount]
  | cons e rest ih =>
    intro ys n
    cases e with
    | append f =>
      simp only [List.cons_append, statusCtx, appCount, List.append_eq]
      rw [ih]
      have h : n + 1 + appCount rest = n + (appCount rest + 1) := by omega
      rw [h]
    | status el im vd =>
      simp only [List.cons_append, statusCtx, appCount, List.append_eq]
      rw [ih]
    | openWriter fps q c pf => simp only [List.cons_append, statusCtx, appCount, List.append_eq]; rw [ih]
    | openReader i => simp only [List.cons_append, statusCtx, appCount, List.append_eq]; rw [ih]
    | preview f i ts => simp only [List.cons_append, statusCtx, appCount, List.append_eq]; rw [ih]
    | closeReader i => simp only [List.cons_append, statusCtx, appCount, List.append_eq]; rw [ih]
    | closeWriter => simp only [List.cons_append, statusCtx, appCount, List.append_eq]; rw [ih]
    | summary t im r => simp only [List.cons_append, statusCtx, appCount, List.append_eq]; rw [ih]

theorem expectedPreviews_append (p : Int) (fr : Rat) (xs : List Frame) :
    ∀ (ys : List Frame) (n : Nat),
      expectedPreviews p fr (xs ++ ys) n =
        expectedPreviews p fr xs n ++ expectedPreviews p fr ys (n + xs.length) := by
  induction xs with
  | nil => intro ys n; simp [expectedPreviews]
  | cons f rest ih =>
    intro ys n
    simp only [List.cons_append, expectedPreviews, List.length_cons, List.append_eq]
    rw [ih ys (n + 1)]
    have h : n + 1 + rest.length = n + (rest.length + 1) := by omega
    rw [h, List.append_assoc]

theorem appCount_frameStep (cfg : Config) (clock : Nat → Rat) (s fr : Rat)
    (st : RunState) (f : Frame) :
    appCount (frameStep cfg clock s fr st f).1 = 1 := by
  rw [appCount_eq, appendedFrames_frameStep]
  rfl

theorem previewRecords_frameStep (cfg : Config) (clock : Nat → Rat) (s fr : Rat)
    (st : RunState) (f : Frame) (p : Int) (hp : cfg.preview = some p) (h0 : 0 < p) :
    previewRecords (frameStep cfg clock s fr st f).1 =
      if (st.count : Int) % p = 0 then [(f, st.count, (st.count : Rat) / fr)] else [] := by
  have ht : truthyI cfg.preview = true := by
    rw [hp]; simp [truthyI]; omega
  simp only [frameStep, previewRecords, List.filterMap_cons, List.filterMap_append, ht, hp,
    Bool.true_and, Option.getD_some]
  split <;> split <;> simp_all [List.filterMap]

theorem previewRecords_runFrames (cfg : Config) (clock : Nat → Rat) (s fr : Rat)
    (p : Int) (hp : cfg.preview = some p) (h0 : 0 < p) :
    ∀ (frames : List Frame) (st : RunState),
      previewRecords (runFrames cfg clock s fr frames st).1 =
        expectedPreviews p fr frames st.count := by
  intro frames
  induction frames with
  | nil => intro st; simp [runFrames, previewRecords, expectedPreviews]
  | cons f rest ih =>
    intro st
    simp only [runFrames, previewRecords, List.filterMap_append]
    have h1 := previewRecords_frameStep cfg clock s fr st f p hp h0
    have h2 := ih (frameStep cfg clock s fr st f).2
    simp only [previewRecords] at h1 h2
    rw [h1, h2, frameStep_count]
    simp [expectedPreviews]

theorem statusCtx_frameStep_mem (cfg : Config) (clock : Nat → Rat) (s fr : Rat)
    (st : RunState) (f : Frame) (el : Rat) (im : Nat) (vd : Rat) (n : Nat)
    (h : (el, im, vd, n) ∈ statusCtx (frameStep cfg clock s fr st f).1 st.count) :
    im + 1 = n ∧ vd = (im : Rat) / fr := by
  simp only [frameStep, statusCtx] at h
  split at h <;> split at h <;> simp_all [statusCtx]

theorem statusCtx_runFrames_mem (cfg : Config) (clock : Nat → Rat) (s fr : Rat) :
    ∀ (frames : List Frame) (st : RunState) (el : Rat) (im : Nat) (vd : Rat) (n : Nat),
      (el, im, vd, n) ∈ statusCtx (runFrames cfg clock s fr frames st).1 st.count →
      im + 1 = n ∧ vd = (im : Rat) / fr := by
  intro frames
  induction frames with
  | nil => intro st el im vd n h; simp [runFrames, statusCtx] at h
  | cons f rest ih =>
    intro st el im vd n h
    simp only [runFrames] at h
    rw [statusCtx_append, appCount_frameStep] at h
    rcases List.mem_append.mp h with h1 | h1
    · exact statusCtx_frameStep_mem cfg clock s fr st f el im vd n h1
    · have := ih (frameStep cfg clock s fr st f).2 el im vd n
      rw [frameStep_count] at this
      exact this h1

end VideoTools

namespace VideoTools

theorem appCount_append (xs ys : List Event) :
    appCount (xs ++ ys) = appCount xs + appCount ys := by
  simp [appCount_eq, appendedFrames, List.filterMap_append]

theorem runInput_ok (cfg : Config) (clock : Nat → Rat) (s fr : Rat)
    (idx : Nat) (inp : InputFile) (st : RunState) :
    (runInput cfg clock s fr idx inp st).2.2 = !inp.bad := rfl

theorem runInput_state (cfg : Config) (clock : Nat → Rat) (s fr : Rat)
    (idx : Nat) (inp : InputFile) (st : RunState) :
    (runInput cfg clock s fr idx inp st).2.1 =
      (runFrames cfg clock s fr inp.frames st).2 := rfl

theorem appendedFrames_runInput (cfg : Config) (clock : Nat → Rat) (s fr : Rat)
    (idx : Nat) (inp : InputFile) (st : RunState) :
    appendedFrames (runInput cfg clock s fr idx inp st).1 = inp.frames := by
  have h := appendedFrames_runFrames cfg clock s fr inp.frames st
  cases hb : inp.bad <;>
    simp_all [runInput, appendedFrames, List.filterMap_cons, List.filterMap_append]

theorem openedReaders_runInput (cfg : Config) (clock : Nat → Rat) (s fr : Rat)
    (idx : Nat) (inp : InputFile) (st : RunState) :
    openedReaders (runInput cfg clock s fr idx inp st).1 = [idx] := by
  have h := (extractors_of_frameEv _ (isFrameEv_runFrames cfg clock s fr inp.frames st)).1
  cases hb : inp.bad <;>
    simp_all [runInput, openedReaders, List.filterMap_cons, List.filterMap_append]

theorem closedReaders_runInput (cfg : Config) (clock : Nat → Rat) (s fr : Rat)
    (idx : Nat) (inp : InputFile) (st : RunState) :
    closedReaders (runInput cfg clock s fr idx inp st).1 =
      if inp.bad then [] else [idx] := by
  have h := (extractors_of_frameEv _ (isFrameEv_runFrames cfg clock s fr inp.frames st)).2.1
  cases hb : inp.bad <;>
    simp_all [runInput, closedReaders, List.filterMap_cons, List.filterMap_append]

theorem writerOpens_runInput (cfg : Config) (clock : Nat → Rat) (s fr : Rat)
    (idx : Nat) (inp : InputFile) (st : RunState) :
    writerOpens (runInput cfg clock s fr idx inp st).1 = [] := by
  have h := (extractors_of_frameEv _ (isFrameEv_runFrames cfg clock s fr inp.frames st)).2.2.1
  cases hb : inp.bad <;>
    simp_all [runInput, writerOpens, List.filterMap_cons, List.filterMap_append]

theorem summaryRecords_runInput (cfg : Config) (clock : Nat → Rat) (s fr : Rat)
    (idx : Nat) (inp : InputFile) (st : RunState) :
    summaryRecords (runInput cfg clock s fr idx inp st).1 = [] := by
  have h := (extractors_of_frameEv _ (isFrameEv_runFrames cfg clock s fr inp.frames st)).2.2.2.1
  cases hb : inp.bad <;>
    simp_all [runInput, summaryRecords, List.filterMap_cons, List.filterMap_append]

theorem writerCloseCount_runInput (cfg : Config) (clock : Nat → Rat) (s fr : Rat)
    (idx : Nat) (inp : InputFile) (st : RunState) :
    writerCloseCount (runInput cfg clock s fr idx inp st).1 = 0 := by
  have h := (extractors_of_frameEv _ (isFrameEv_runFrames cfg clock s fr inp.frames st)).2.2.2.2
  cases hb : inp.bad <;>
    simp_all [runInput, writerCloseCount, List.filter_append, List.length_eq_zero,
      List.filter_eq_nil_iff, List.length_append]

theorem appCount_runInput (cfg : Config) (clock : Nat → Rat) (s fr : Rat)
    (idx : Nat) (inp : InputFile) (st : RunState) :
    appCount (runInput cfg clock s fr idx inp st).1 = inp.frames.length := by
  rw [appCount_eq, appendedFrames_runInput]

theorem previewRecords_runInput (cfg : Config) (clock : Nat → Rat) (s fr : Rat)
    (p : Int) (hp : cfg.preview = some p) (h0 : 0 < p)
    (idx : Nat) (inp : InputFile) (st : RunState) :
    previewRecords (runInput cfg clock s fr idx inp st).1 =
      expectedPreviews p fr inp.frames st.count := by
  have h := previewRecords_runFrames cfg clock s fr p hp h0 inp.frames st
  cases hb : inp.bad <;>
    simp_all [runInput, previewRecords, List.filterMap_cons, List.filterMap_append]

theorem statusCtx_runInput_mem (cfg : Config) (clock : Nat → Rat) (s fr : Rat)
    (idx : Nat) (inp : InputFile) (st : RunState)
    (el : Rat) (im : Nat) (vd : Rat) (n : Nat)
    (h : (el, im, vd, n) ∈ statusCtx (runInput cfg clock s fr idx inp st).1 st.count) :
    im + 1 = n ∧ vd = (im : Rat) / fr := by
  simp only [runInput, statusCtx, List.append_eq, statusCtx_append] at h
  rcases List.mem_append.mp h with h1 | h1
  · exact statusCtx_runFrames_mem cfg clock s fr inp.frames st el im vd n h1
  · cases hb : inp.bad <;> simp_all [statusCtx]

end VideoTools

namespace VideoTools

theorem runInputs_ok (cfg : Config) (clock : Nat → Rat) (s fr : Rat) :
    ∀ (l : List InputFile) (idx : Nat) (st : RunState),
      (runInputs cfg clock s fr l idx st).2.2 = l.all (fun i => !i.bad) := by
  intro l
  induction l with
  | nil => intro idx st; simp [runInputs]
  | cons inp rest ih =>
    intro idx st
    simp only [runInputs, runInput_ok, List.all_cons]
    cases hb : inp.bad
    · simp [hb, ih]
    · simp [hb]

theorem runInputs_good (cfg : Config) (clock : Nat → Rat) (s fr : Rat) :
    ∀ (l : List InputFile) (idx : Nat) (st : RunState),
      l.all (fun i => !i.bad) = true →
      appendedFrames (runInputs cfg clock s fr l idx st).1 =
          (l.map InputFile.frames).flatten ∧
        (runInputs cfg clock s fr l idx st).2.1.count =
          st.count + (l.map (fun i => i.frames.length)).sum ∧
        (runInputs cfg clock s fr l idx st).2.1.tick =
          st.tick + (l.map (fun i => i.frames.length)).sum ∧
        openedReaders (runInputs cfg clock s fr l idx st).1 =
          closedReaders (runInputs cfg clock s fr l idx st).1 := by
  intro l
  induction l with
  | nil =>
    intro idx st h
    simp [runInputs, appendedFrames, openedReaders, closedReaders]
  | cons inp rest ih =>
    intro idx st h
    simp only [List.all_cons, Bool.and_eq_true, Bool.not_eq_true'] at h
    obtain ⟨hb, hrest⟩ := h
    obtain ⟨ih1, ih2, ih3, ih4⟩ := ih (idx + 1) (runInput cfg clock s fr idx inp st).2.1 hrest
    simp only [runInputs, runInput_ok, hb, Bool.not_false, if_true]
    refine ⟨?_, ?_, ?_, ?_⟩
    · simp only [appendedFrames, List.filterMap_append]
      have h1 := appendedFrames_runInput cfg clock s fr idx inp st
      simp only [appendedFrames] at h1 ih1
      rw [h1, ih1]
      simp
    · rw [ih2, runInput_state, runFrames_count]
      simp only [List.map_cons, List.sum_cons]
      omega
    · rw [ih3, runInput_state, runFrames_tick]
      simp only [List.map_cons, List.sum_cons]
      omega
    · simp only [openedReaders, closedReaders, List.filterMap_append]
      have h1 := openedReaders_runInput cfg clock s fr idx inp st
      have h2 := closedReaders_runInput cfg clock s fr idx inp st
      rw [hb] at h2
      simp only [Bool.false_eq_true, if_false] at h2
      simp only [openedReaders] at h1
      simp only [closedReaders] at h2
      simp only [openedReaders] at ih4
      simp only [closedReaders] at ih4
      rw [h1, h2, ih4]

theorem runInputs_bad (cfg : Config) (clock : Nat → Rat) (s fr : Rat) :
    ∀ (l : List InputFile) (idx : Nat) (st : RunState),
      l.all (fun i => !i.bad) = false →
      (openedReaders (runInputs cfg clock s fr l idx st).1).length =
        (closedReaders (runInputs cfg clock s fr l idx st).1).length + 1 := by
  intro l
  induction l with
  | nil => intro idx st h; simp at h
  | cons inp rest ih =>
    intro idx st h
    simp only [runInputs]
    split
    next hok =>
      rw [runInput_ok] at hok
      have hb : inp.bad = false := by simpa using hok
      have hres : rest.all (fun i => !i.bad) = false := by
        simp only [List.all_cons, hb, Bool.not_false, Bool.true_and] at h
        exact h
      have h1 := openedReaders_runInput cfg clock s fr idx inp st
      have h2 := closedReaders_runInput cfg clock s fr idx inp st
      rw [hb] at h2
      simp only [Bool.false_eq_true, if_false] at h2
      have h3 := ih (idx + 1) (runInput cfg clock s fr idx inp st).2.1 hres
      simp only [openedReaders, closedReaders, List.filterMap_append] at h1 h2 h3 ⊢
      rw [h1, h2]
      simp only [List.length_append, List.length_cons, List.length_nil]
      omega
    next hok =>
      rw [runInput_ok] at hok
      have hb : inp.bad = true := by simpa using hok
      have h1 := openedReaders_runInput cfg clock s fr idx inp st
      have h2 := closedReaders_runInput cfg clock s fr idx inp st
      rw [hb] at h2
      simp only [if_pos rfl] at h2
      rw [h1, h2]
      rfl

theorem writerOpens_runInputs (cfg : Config) (clock : Nat → Rat) (s fr : Rat) :
    ∀ (l : List InputFile) (idx : Nat) (st : RunState),
      writerOpens (runInputs cfg clock s fr l idx st).1 = [] := by
  intro l
  induction l with
  | nil => intro idx st; simp [runInputs, writerOpens]
  | cons inp rest ih =>
    intro idx st
    have h1 := writerOpens_runInput cfg clock s fr idx inp st
    simp only [runInputs]
    split
    · simp only [writerOpens, List.filterMap_append] at *
      rw [h1, ih]
      rfl
    · exact h1

theorem summaryRecords_runInputs (cfg : Config) (clock : Nat → Rat) (s fr : Rat) :
    ∀ (l : List InputFile) (idx : Nat) (st : RunState),
      summaryRecords (runInputs cfg clock s fr l idx st).1 = [] := by
  intro l
  induction l with
  | nil => intro idx st; simp [runInputs, summaryRecords]
  | cons inp rest ih =>
    intro idx st
    have h1 := summaryRecords_runInput cfg clock s fr idx inp st
    simp only [runInputs]
    split
    · simp only [summaryRecords, List.filterMap_append] at *
      rw [h1, ih]
      rfl
    · exact h1

theorem writerCloseCount_runInputs (cfg : Config) (clock : Nat → Rat) (s fr : Rat) :
    ∀ (l : List InputFile) (idx : Nat) (st : RunState),
      writerCloseCount (runInputs cfg clock s fr l idx st).1 = 0 := by
  intro l
  induction l with
  | nil => intro idx st; simp [runInputs, writerCloseCount]
  | cons inp rest ih =>
    intro idx st
    have h1 := writerCloseCount_runInput cfg clock s fr idx inp st
    simp only [runInputs]
    split
    · simp only [writerCloseCount, List.filter_append, List.length_append] at *
      rw [h1, ih]
    · exact h1

theorem previewRecords_runInputs (cfg : Config) (clock : Nat → Rat) (s fr : Rat)
    (p : Int) (hp : cfg.preview = some p) (h0 : 0 < p) :
    ∀ (l : List InputFile) (idx : Nat) (st : RunState),
      l.all (fun i => !i.bad) = true →
      previewRecords (runInputs cfg clock s fr l idx st).1 =
        expectedPreviews p fr (l.map InputFile.frames).flatten st.count := by
  intro l
  induction l with
  | nil => intro idx st h; simp [runInputs, previewRecords, expectedPreviews]
  | cons inp rest ih =>
    intro idx st h
    simp only [List.all_cons, Bool.and_eq_true, Bool.not_eq_true'] at h
    obtain ⟨hb, hrest⟩ := h
    simp only [runInputs, runInput_ok, hb, Bool.not_false, if_true]
    simp only [previewRecords, List.filterMap_append]
    have h1 := previewRecords_runInput cfg clock s fr p hp h0 idx inp st
    have h2 := ih (idx + 1) (runInput cfg clock s fr idx inp st).2.1 hrest
    simp only [previewRecords] at h1 h2
    rw [h1, h2, runInput_state, runFrames_count]
    simp only [List.map_cons, List.flatten_cons]
    rw [expectedPreviews_append]

theorem statusCtx_runInputs_mem (cfg : Config) (clock : Nat → Rat) (s fr : Rat) :
    ∀ (l : List InputFile) (idx : Nat) (st : RunState)
      (el : Rat) (im : Nat) (vd : Rat) (n : Nat),
      (el, im, vd, n) ∈ statusCtx (runInputs cfg clock s fr l idx st).1 st.count →
      im + 1 = n ∧ vd = (im : Rat) / fr := by
  intro l
  induction l with
  | nil => intro idx st el im vd n h; simp [runInputs, statusCtx] at h
  | cons inp rest ih =>
    intro idx st el im vd n h
    simp only [runInputs] at h
    split at h
    · rw [statusCtx_append, appCount_runInput] at h
      rcases List.mem_append.mp h with h1 | h1
      · exact statusCtx_runInput_mem cfg clock s fr idx inp st el im vd n h1
      · have h2 := ih (idx + 1) (runInput cfg clock s fr idx inp st).2.1 el im vd n
        rw [runInput_state, runFrames_count] at h2
        exact h2 h1
    · exact statusCtx_runInput_mem cfg clock s fr idx inp st el im vd n h

end VideoTools

namespace VideoTools

theorem probe_ok_elim (cfg : Config) (inp : InputFile) (params : MediaParams)
    (h : probe cfg inp = Except.ok params) :
    reSearchTok inp.meta.pix_fmt = some params.pixelformat ∧
      params.size = inp.meta.size ∧ params.codec = inp.meta.codec ∧
      params.framerate =
        (if truthyR cfg.framerate then cfg.framerate.getD 0 else inp.meta.fps) := by
  simp only [probe] at h
  cases hre : reSearchTok inp.meta.pix_fmt with
  | none => rw [hre] at h; simp at h
  | some pf =>
    rw [hre] at h
    simp only [Except.ok.injEq] at h
    subst h
    simp

theorem process_good (cfg : Config) (clock : Nat → Rat) (first : InputFile)
    (rest : List InputFile) (params : MediaParams)
    (hpr : probe cfg first = Except.ok params)
    (hg : (first :: rest).all (fun i => !i.bad) = true) :
    process cfg clock (first :: rest) =
      (Event.openWriter params.framerate OUTPUT_QUALITY params.codec params.pixelformat ::
          ((runInputs cfg clock (clock 0) params.framerate (first :: rest) 0
              { count := 0, lastStatus := clock 0, tick := 1 }).1
            ++ [Event.closeWriter,
                Event.summary
                  (clock (runInputs cfg clock (clock 0) params.framerate (first :: rest) 0
                      { count := 0, lastStatus := clock 0, tick := 1 }).2.1.tick - clock 0)
                  (runInputs cfg clock (clock 0) params.framerate (first :: rest) 0
                      { count := 0, lastStatus := clock 0, tick := 1 }).2.1.count
                  (((runInputs cfg clock (clock 0) params.framerate (first :: rest) 0
                      { count := 0, lastStatus := clock 0, tick := 1 }).2.1.count : Rat) /
                    (clock (runInputs cfg clock (clock 0) params.framerate (first :: rest) 0
                      { count := 0, lastStatus := clock 0, tick := 1 }).2.1.tick - clock 0))]),
       none) := by
  simp only [process, hpr]
  rw [if_pos]
  · simp [List.cons_append]
  · rw [runInputs_ok]
    exact hg

theorem process_bad (cfg : Config) (clock : Nat → Rat) (first : InputFile)
    (rest : List InputFile) (params : MediaParams)
    (hpr : probe cfg first = Except.ok params)
    (hg : (first :: rest).all (fun i => !i.bad) = false) :
    process cfg clock (first :: rest) =
      (Event.openWriter params.framerate OUTPUT_QUALITY params.codec params.pixelformat ::
          (runInputs cfg clock (clock 0) params.framerate (first :: rest) 0
              { count := 0, lastStatus := clock 0, tick := 1 }).1,
       some ProcErr.decodeError) := by
  simp only [process, hpr]
  rw [if_neg]
  rw [runInputs_ok, hg]
  simp

end VideoTools

namespace VideoTools

/-- C1: for every run of `process` that succeeds (no uncaught error), the
sequence of frames appended to the writer equals the concatenation, in
input order, of the inputs' frame sequences — no frame is re-read,
skipped, or reordered. -/
theorem claim_C1 (cfg : Config) (clock : Nat → Rat) (inputs : List InputFile)
    (h : (process cfg clock inputs).2 = none) :
    appendedFrames (process cfg clock inputs).1 =
      (inputs.map InputFile.frames).flatten := by
  cases inputs with
  | nil => simp [process] at h
  | cons first rest =>
    cases hpr : probe cfg first with
    | error e => simp [process, hpr] at h
    | ok params =>
      cases hg : (first :: rest).all (fun i => !i.bad) with
      | false => rw [process_bad cfg clock first rest params hpr hg] at h; simp at h
      | true =>
        rw [process_good cfg clock first rest params hpr hg]
        obtain ⟨h1, -, -, -⟩ := runInputs_good cfg clock (clock 0) params.framerate
          (first :: rest) 0 { count := 0, lastStatus := clock 0, tick := 1 } hg
        simp only [appendedFrames, List.filterMap_cons, List.filterMap_append] at h1 ⊢
        rw [h1]
        simp

/-- C2: after every successful run, the total-frames counter in the final
summary equals the sum of the inputs' frame counts, the reported elapsed
time is the wall-clock span of the run (final minus initial
`perf_counter` reading), and the reported average FPS is the counter
divided by that span. -/
theorem claim_C2 (cfg : Config) (clock : Nat → Rat) (inputs : List InputFile)
    (h : (process cfg clock inputs).2 = none) :
    summaryRecords (process cfg clock inputs).1 =
      [(clock ((inputs.map (fun i => i.frames.length)).sum + 1) - clock 0,
        (inputs.map (fun i => i.frames.length)).sum,
        (((inputs.map (fun i => i.frames.length)).sum : Rat) /
          (clock ((inputs.map (fun i => i.frames.length)).sum + 1) - clock 0)))] := by
  cases inputs with
  | nil => simp [process] at h
  | cons first rest =>
    cases hpr : probe cfg first with
    | error e => simp [process, hpr] at h
    | ok params =>
      cases hg : (first :: rest).all (fun i => !i.bad) with
      | false => rw [process_bad cfg clock first rest params hpr hg] at h; simp at h
      | true =>
        rw [process_good cfg clock first rest params hpr hg]
        obtain ⟨-, h2, h3, -⟩ := runInputs_good cfg clock (clock 0) params.framerate
          (first :: rest) 0 { count := 0, lastStatus := clock 0, tick := 1 } hg
        have h4 := summaryRecords_runInputs cfg clock (clock 0) params.framerate
          (first :: rest) 0 { count := 0, lastStatus := clock 0, tick := 1 }
        simp only [summaryRecords, List.filterMap_cons, List.filterMap_append] at h4 ⊢
        rw [h4, h2, h3]
        simp [Nat.add_comm, Function.comp_def]

end VideoTools

namespace VideoTools

/-- C3: for every run whose negotiation succeeds, the framerate passed to
the writer is the explicit override when a positive override was
supplied and exactly the probed framerate of `input[0]` otherwise
(`None` or `0` override), while the size, codec and pixel-format token
of the run are always those derived from the probe of `input[0]`,
independent of any user configuration (the writer receives the codec and
pixel-format token; the probed size is reported but not a writer
argument). -/
theorem claim_C3 (cfg : Config) (clock : Nat → Rat) (first : InputFile)
    (rest : List InputFile) (params : MediaParams)
    (hpr : probe cfg first = Except.ok params) :
    writerOpens (process cfg clock (first :: rest)).1 =
        [(params.framerate, OUTPUT_QUALITY, params.codec, params.pixelformat)] ∧
      (∀ r, cfg.framerate = some r → 0 < r → params.framerate = r) ∧
      (cfg.framerate = none ∨ cfg.framerate = some 0 →
        params.framerate = first.meta.fps) ∧
      params.size = first.meta.size ∧
      params.codec = first.meta.codec ∧
      reSearchTok first.meta.pix_fmt = some params.pixelformat := by
  obtain ⟨he1, he2, he3, he4⟩ := probe_ok_elim cfg first params hpr
  refine ⟨?_, ?_, ?_, he2, he3, he1⟩
  · cases hg : (first :: rest).all (fun i => !i.bad) with
    | true =>
      rw [process_good cfg clock first rest params hpr hg]
      have h4 := writerOpens_runInputs cfg clock (clock 0) params.framerate
        (first :: rest) 0 { count := 0, lastStatus := clock 0, tick := 1 }
      simp only [writerOpens, List.filterMap_cons, List.filterMap_append] at h4 ⊢
      rw [h4]
      simp
    | false =>
      rw [process_bad cfg clock first rest params hpr hg]
      have h4 := writerOpens_runInputs cfg clock (clock 0) params.framerate
        (first :: rest) 0 { count := 0, lastStatus := clock 0, tick := 1 }
      simp only [writerOpens, List.filterMap_cons] at h4 ⊢
      rw [h4]
  · intro r hr hpos
    have hne : r ≠ 0 := ne_of_gt hpos
    rw [he4, hr]
    simp [truthyR, hne]
  · intro hor
    rcases hor with h | h <;> rw [he4, h] <;> simp [truthyR]

/-- C5 (amended): every status record emitted during a run carries a
`framesProcessed` field equal to the number of frames appended *before*
the frame whose append triggered it — one less than the number appended
so far including that frame — and a `processedVideoSeconds` field equal
to that same (pre-increment) counter divided by the negotiated
framerate. -/
theorem claim_C5_amended (cfg : Config) (clock : Nat → Rat) (first : InputFile)
    (rest : List InputFile) (params : MediaParams)
    (hpr : probe cfg first = Except.ok params)
    (el : Rat) (im : Nat) (vd : Rat) (n : Nat)
    (h : (el, im, vd, n) ∈ statusCtx (process cfg clock (first :: rest)).1 0) :
    im + 1 = n ∧ vd = (im : Rat) / params.framerate := by
  cases hg : (first :: rest).all (fun i => !i.bad) with
  | true =>
    rw [process_good cfg clock first rest params hpr hg] at h
    simp only [statusCtx] at h
    rw [statusCtx_append] at h
    rcases List.mem_append.mp h with h1 | h1
    · exact statusCtx_runInputs_mem cfg clock (clock 0) params.framerate
        (first :: rest) 0 { count := 0, lastStatus := clock 0, tick := 1 }
        el im vd n h1
    · simp [statusCtx] at h1
  | false =>
    rw [process_bad cfg clock first rest params hpr hg] at h
    simp only [statusCtx] at h
    exact statusCtx_runInputs_mem cfg clock (clock 0) params.framerate
      (first :: rest) 0 { count := 0, lastStatus := clock 0, tick := 1 }
      el im vd n h

/-- C6: on every successful run with a positive preview interval P, the
preview records are exactly those at the global cumulative 0-indexed
frame positions divisible by P (0, P, 2P, …), in order, each carrying
its frame, its index and the timestamp index/framerate. -/
theorem claim_C6 (cfg : Config) (clock : Nat → Rat) (first : InputFile)
    (rest : List InputFile) (params : MediaParams) (p : Int)
    (hpr : probe cfg first = Except.ok params)
    (hp : cfg.preview = some p) (h0 : 0 < p)
    (hs : (process cfg clock (first :: rest)).2 = none) :
    previewRecords (process cfg clock (first :: rest)).1 =
      expectedPreviews p params.framerate
        (((first :: rest).map InputFile.frames).flatten) 0 := by
  cases hg : (first :: rest).all (fun i => !i.bad) with
  | false => rw [process_bad cfg clock first rest params hpr hg] at hs; simp at hs
  | true =>
    rw [process_good cfg clock first rest params hpr hg]
    have h1 := previewRecords_runInputs cfg clock (clock 0) params.framerate p hp h0
      (first :: rest) 0 { count := 0, lastStatus := clock 0, tick := 1 } hg
    simp only [previewRecords, List.filterMap_cons, List.filterMap_append] at h1 ⊢
    rw [h1]
    simp

end VideoTools

namespace VideoTools

/-- C7 (amended): when a run of `process` terminates successfully, the
writer is closed exactly once and every opened reader is closed; but
when the run aborts on a mid-stream decode error, the writer is never
closed and exactly one opened reader (the one being consumed) is left
unclosed — the code has no scoped acquisition or try/finally, so the
claimed closure-on-every-exit-path does not hold on the error path. -/
theorem claim_C7_amended (cfg : Config) (clock : Nat → Rat) (first : InputFile)
    (rest : List InputFile) (params : MediaParams)
    (hpr : probe cfg first = Except.ok params) :
    ((process cfg clock (first :: rest)).2 = none →
        writerCloseCount (process cfg clock (first :: rest)).1 = 1 ∧
        openedReaders (process cfg clock (first :: rest)).1 =
          closedReaders (process cfg clock (first :: rest)).1) ∧
      ((process cfg clock (first :: rest)).2 = some ProcErr.decodeError →
        writerCloseCount (process cfg clock (first :: rest)).1 = 0 ∧
        (openedReaders (process cfg clock (first :: rest)).1).length =
          (closedReaders (process cfg clock (first :: rest)).1).length + 1) := by
  cases hg : (first :: rest).all (fun i => !i.bad) with
  | true =>
    rw [process_good cfg clock first rest params hpr hg]
    constructor
    · intro _
      obtain ⟨-, -, -, h4⟩ := runInputs_good cfg clock (clock 0) params.framerate
        (first :: rest) 0 { count := 0, lastStatus := clock 0, tick := 1 } hg
      have h5 := writerCloseCount_runInputs cfg clock (clock 0) params.framerate
        (first :: rest) 0 { count := 0, lastStatus := clock 0, tick := 1 }
      constructor
      · rw [writerCloseCount, List.length_eq_zero] at h5
        simp [writerCloseCount, List.filter_cons, List.filter_append, h5]
      · simp only [openedReaders, closedReaders, List.filterMap_cons,
          List.filterMap_append] at h4 ⊢
        rw [h4]
        simp
    · intro hcontra
      simp at hcontra
  | false =>
    rw [process_bad cfg clock first rest params hpr hg]
    constructor
    · intro hcontra
      simp at hcontra
    · intro _
      have h5 := writerCloseCount_runInputs cfg clock (clock 0) params.framerate
        (first :: rest) 0 { count := 0, lastStatus := clock 0, tick := 1 }
      have h6 := runInputs_bad cfg clock (clock 0) params.framerate
        (first :: rest) 0 { count := 0, lastStatus := clock 0, tick := 1 } hg
      constructor
      · rw [writerCloseCount, List.length_eq_zero] at h5
        simp [writerCloseCount, List.filter_cons, h5]
      · simp only [openedReaders, closedReaders, List.filterMap_cons] at h6 ⊢
        exact h6

/-- C8: whenever the output path already exists and overwrite is not
permitted, `main` exits with code 1 and an empty event trace: no input
source is probed or opened, the output sink is never opened, and no
frame is written — regardless of every other argument. -/
theorem claim_C8 (fs : FS) (cfg : Config) (clock : Nat → Rat)
    (inputPaths : List String) (output : String) (content : String → InputFile)
    (hex : fs.pathExists output = true) :
    main fs cfg clock inputPaths output false content = ([], 1) := by
  simp [main, check_files, hex]

theorem takeWhile_le_length {α : Type} (q : α → Bool) :
    ∀ (u v l : List α), l = u ++ v → u.all q = true →
      u.length ≤ (l.takeWhile q).length := by
  intro u
  induction u with
  | nil => intro v l h1 h2; simp
  | cons a u2 ih =>
    intro v l h1 h2
    subst h1
    simp only [List.all_cons, Bool.and_eq_true] at h2
    rw [List.cons_append, List.takeWhile_cons_of_pos h2.1]
    simp only [List.length_cons]
    exact Nat.succ_le_succ (ih v (u2 ++ v) rfl h2.2)

/-- C9: for every probed pixel-format string that begins with an ASCII
alphanumeric character, the regex search succeeds and the token it
returns is the maximal leading run of ASCII alphanumeric characters of
the string: a non-empty leading segment, all of whose characters are in
the class, that is at least as long as any leading all-class segment. -/
theorem claim_C9 (s : String) (h : startsAlnumB s = true) :
    ∃ t : String, reSearchTok s = some t ∧
      (∃ v, t.data ++ v = s.data) ∧
      t.data.all inClass = true ∧
      t.data ≠ [] ∧
      ∀ u v, s.data = u ++ v → u.all inClass = true →
        u.length ≤ t.data.length := by
  obtain ⟨c, cs, hd, hc⟩ : ∃ c cs, s.data = c :: cs ∧ inClass c = true := by
    cases hsd : s.data with
    | nil =>
      rw [startsAlnumB, hsd] at h
      exact absurd h (by simp)
    | cons c cs =>
      simp only [startsAlnumB, hsd] at h
      exact ⟨c, cs, rfl, h⟩
  have hne : s.data.takeWhile inClass ≠ [] := by
    rw [hd, List.takeWhile_cons_of_pos hc]
    simp
  refine ⟨String.mk (s.data.takeWhile inClass), ?_, ?_, ?_, hne, ?_⟩
  · simp only [reSearchTok]
    rw [if_neg]
    simp only [List.isEmpty_eq_true]
    exact hne
  · exact ⟨s.data.dropWhile inClass, List.takeWhile_append_dropWhile inClass s.data⟩
  · rw [List.all_eq_true]
    intro x hx
    exact List.mem_takeWhile_imp hx
  · intro u v huv hall
    exact takeWhile_le_length inClass u v s.data huv hall

/-- C10: for a first input whose raw pixel-format string does not begin
with an ASCII alphanumeric character, the anchored regex search yields
no match, and the unguarded subscript of its `None` result raises a
`TypeError` that aborts the run before the writer is opened or any
frame is read: the trace is empty. -/
theorem claim_C10 (cfg : Config) (clock : Nat → Rat) (first : InputFile)
    (rest : List InputFile) (h : startsAlnumB first.meta.pix_fmt = false) :
    reSearchTok first.meta.pix_fmt = none ∧
      process cfg clock (first :: rest) = ([], some ProcErr.typeError) := by
  have hre : reSearchTok first.meta.pix_fmt = none := by
    cases hsd : first.meta.pix_fmt.data with
    | nil => simp [reSearchTok, hsd]
    | cons c cs =>
      have hc : inClass c = false := by
        simp only [startsAlnumB, hsd] at h
        exact h
      simp [reSearchTok, hsd, List.takeWhile_cons_of_neg, hc]
  refine ⟨hre, ?_⟩
  have hpe : probe cfg first = Except.error ProcErr.typeError := by
    simp [probe, hre]
  simp [process, hpe]

end VideoTools

namespace VideoTools

/-- A 30-fps test metadata record with a decorated pixel-format string. -/
def mdW : Metadata :=
  { size := (4, 2), fps := 30, pix_fmt := "yuv420p(tv)", codec := "h264" }

/-- Metadata whose pixel-format string starts with punctuation. -/
def mdBadPix : Metadata :=
  { size := (4, 2), fps := 30, pix_fmt := "(tv)", codec := "h264" }

def inpA : InputFile := { meta := mdW, frames := [10, 11], bad := false }

def inpB : InputFile := { meta := mdW, frames := [20], bad := false }

def inpBad : InputFile := { meta := mdW, frames := [10], bad := true }

def inpBadPix : InputFile := { meta := mdBadPix, frames := [10], bad := false }

/-- A wall clock advancing one second per observation. -/
def clkW : Nat → Rat := fun n => n

/-- A wall clock advancing two seconds per observation. -/
def clk2 : Nat → Rat := fun n => 2 * n

def cfgW : Config := { framerate := none, status := none, preview := none }

def cfgNegStatus : Config := { framerate := none, status := some (-1), preview := none }

def cfgStatus1 : Config := { framerate := none, status := some 1, preview := none }

def cfgPrev2 : Config := { framerate := none, status := none, preview := some 2 }

def cfgOverride : Config := { framerate := some 24, status := none, preview := none }

/-- The parameters negotiated from `mdW` with no framerate override. -/
def paramsW : MediaParams :=
  { size := (4, 2), framerate := 30, pixelformat := "yuv420p", codec := "h264" }

/-- The parameters negotiated from `mdW` with override framerate 24. -/
def paramsOv : MediaParams :=
  { size := (4, 2), framerate := 24, pixelformat := "yuv420p", codec := "h264" }

end VideoTools

namespace VideoTools

/-- A filesystem on which every path exists, is a readable file, and has
a writable parent directory. -/
def fsW : FS :=
  { isFile := fun _ => true, pathExists := fun _ => true,
    readable := fun _ => true, parentWritable := fun _ => true }

/-- C4: refuted as stated — code-bug evidence. `parse_arguments`
validates `-f` and `-p` but never `_status`, so the interval `-1`
passes the collaborator's asserts (`assertsPass` is `true`); `-1` is
not positive, yet the run emits a status record after every frame,
because `(current - last) > -1` always holds for a forward-running
clock. This contradicts the script's own help text for `-s`
("If positive, show status output every N seconds") and the validation
pattern applied to the neighbouring options. -/
theorem claim_C4 :
    assertsPass cfgNegStatus ["a.mp4"] = true ∧
      ¬ (0 : Int) < -1 ∧
      statusRecords (process cfgNegStatus clkW [inpA]).1 =
        [(1, 0, 0), (2, 1, 1/30)] := by
  refine ⟨rfl, by decide, ?_⟩
  with_unfolding_all rfl

/-- C5 counterexample: on this run the first status record fires right
after the first append; the walker records that 1 append precedes the
record, but its `framesProcessed` field is 0 — the field does not
include the frame just appended, refuting the claim's "including the
frame just appended". -/
theorem claim_C5_counterexample :
    statusCtx (process cfgStatus1 clk2 [inpB]).1 0 = [(2, 0, 0, 1)] ∧
      (0 : Nat) ≠ 1 := by
  refine ⟨?_, by decide⟩
  with_unfolding_all rfl

/-- C7 counterexample: a run aborted by a mid-stream decode error opens
reader 0 but never closes it and never closes the writer — there is no
scoped acquisition, so closure is not guaranteed on this exit path. -/
theorem claim_C7_counterexample :
    (process cfgW clkW [inpBad]).2 = some ProcErr.decodeError ∧
      openedReaders (process cfgW clkW [inpBad]).1 = [0] ∧
      closedReaders (process cfgW clkW [inpBad]).1 = [] ∧
      writerCloseCount (process cfgW clkW [inpBad]).1 = 0 :=
  ⟨rfl, rfl, rfl, rfl⟩

theorem claim_C1_witness :
    (process cfgW clkW [inpA, inpB]).2 = none ∧
      appendedFrames (process cfgW clkW [inpA, inpB]).1 =
        ([inpA, inpB].map InputFile.frames).flatten :=
  ⟨rfl, claim_C1 cfgW clkW [inpA, inpB] rfl⟩

theorem claim_C2_witness :
    (process cfgW clkW [inpA, inpB]).2 = none ∧
      summaryRecords (process cfgW clkW [inpA, inpB]).1 = [(4, 3, (3 : Rat)/4)] := by
  refine ⟨rfl, ?_⟩
  have h := claim_C2 cfgW clkW [inpA, inpB] rfl
  rw [h]
  with_unfolding_all rfl

theorem claim_C3_witness :
    probe cfgOverride inpA = Except.ok paramsOv ∧
      (writerOpens (process cfgOverride clkW [inpA]).1 =
          [(paramsOv.framerate, OUTPUT_QUALITY, paramsOv.codec, paramsOv.pixelformat)] ∧
        (∀ r, cfgOverride.framerate = some r → 0 < r → paramsOv.framerate = r) ∧
        (cfgOverride.framerate = none ∨ cfgOverride.framerate = some 0 →
          paramsOv.framerate = inpA.meta.fps) ∧
        paramsOv.size = inpA.meta.size ∧
        paramsOv.codec = inpA.meta.codec ∧
        reSearchTok inpA.meta.pix_fmt = some paramsOv.pixelformat) :=
  ⟨rfl, claim_C3 cfgOverride clkW inpA [] paramsOv rfl⟩

theorem claim_C5_witness :
    probe cfgStatus1 inpB = Except.ok paramsW ∧
      (2, 0, 0, 1) ∈ statusCtx (process cfgStatus1 clk2 [inpB]).1 0 ∧
      ((0 : Nat) + 1 = 1 ∧ (0 : Rat) = ((0 : Nat) : Rat) / paramsW.framerate) := by
  refine ⟨rfl, ?_, ?_⟩
  · with_unfolding_all exact List.mem_singleton.mpr rfl
  · exact claim_C5_amended cfgStatus1 clk2 inpB [] paramsW rfl 2 0 0 1
      (by with_unfolding_all exact List.mem_singleton.mpr rfl)

theorem claim_C6_witness :
    probe cfgPrev2 inpA = Except.ok paramsW ∧
      cfgPrev2.preview = some 2 ∧ (0 : Int) < 2 ∧
      (process cfgPrev2 clkW [inpA, inpB]).2 = none ∧
      previewRecords (process cfgPrev2 clkW [inpA, inpB]).1 =
        expectedPreviews 2 paramsW.framerate
          (([inpA, inpB].map InputFile.frames).flatten) 0 :=
  ⟨rfl, rfl, by decide, rfl,
    claim_C6 cfgPrev2 clkW inpA [inpB] paramsW 2 rfl rfl (by decide) rfl⟩

theorem claim_C7_witness :
    probe cfgW inpA = Except.ok paramsW ∧
      writerCloseCount (process cfgW clkW [inpA, inpB]).1 = 1 ∧
      openedReaders (process cfgW clkW [inpA, inpB]).1 =
        closedReaders (process cfgW clkW [inpA, inpB]).1 :=
  ⟨rfl, ((claim_C7_amended cfgW clkW inpA [inpB] paramsW rfl).1 rfl).1,
    ((claim_C7_amended cfgW clkW inpA [inpB] paramsW rfl).1 rfl).2⟩

theorem claim_C8_witness :
    fsW.pathExists ("out.mp4") = true ∧
      main fsW cfgW clkW ["a.mp4"] "out.mp4" false (fun _ => inpA) = ([], 1) :=
  ⟨rfl, claim_C8 fsW cfgW clkW ["a.mp4"] "out.mp4" (fun _ => inpA) rfl⟩

theorem claim_C9_witness :
    startsAlnumB ("yuv420p(tv)") = true ∧
      reSearchTok ("yuv420p(tv)") = some ("yuv420p") ∧
      (∃ t : String, reSearchTok ("yuv420p(tv)") = some t ∧
        (∃ v, t.data ++ v = ("yuv420p(tv)" : String).data) ∧
        t.data.all inClass = true ∧
        t.data ≠ [] ∧
        ∀ u v, ("yuv420p(tv)" : String).data = u ++ v → u.all inClass = true →
          u.length ≤ t.data.length) :=
  ⟨rfl, rfl, claim_C9 ("yuv420p(tv)") rfl⟩

theorem claim_C10_witness :
    startsAlnumB ("(tv)") = false ∧
      reSearchTok ("(tv)") = none ∧
      process cfgW clkW [inpBadPix] = ([], some ProcErr.typeError) :=
  ⟨rfl, (claim_C10 cfgW clkW inpBadPix [] rfl).1,
    (claim_C10 cfgW clkW inpBadPix [] rfl).2⟩

end VideoTools
